import Mathlib

/-!
Verification of the Waterfall fractal renderer's core numeric logic.

Shallow embedding of:
- `src/fractal_engine.py` (`FractalEngine`): the high-precision reference
  orbit generator, its engine state, and the orbit codec;
- `src/ui_pro.py`: the rebase request handlers, the GLSL perturbation
  fragment loop, the morph-blend computation, and the audio ripple pool.

Complex numbers are embedded as pairs of rationals `ℚ × ℚ` (the source uses
`mpmath.mpc` at 200 decimal digits for the generator and IEEE floats in the
shader; the claims checked here concern exact structural and order facts
that are independent of rounding, so exact rational arithmetic is the
appropriate executable model).
-/

/-- Complex number as a (real, imag) pair of rationals. -/
abbrev Cx : Type := ℚ × ℚ

/-- Complex addition (componentwise). -/
def cadd (a b : Cx) : Cx := (a.1 + b.1, a.2 + b.2)

/-- Complex multiplication; also the GLSL helper `cmul` in the shader. -/
def cmul (a b : Cx) : Cx := (a.1 * b.1 - a.2 * b.2, a.1 * b.2 + a.2 * b.1)

/-- GLSL helper `csqr`: complex square. -/
def csqr (a : Cx) : Cx := (a.1 * a.1 - a.2 * a.2, 2 * a.1 * a.2)

/-- Real scalar times complex (`2*z` in the Python source, `2.0 * Z_n` in GLSL). -/
def smul2 (s : ℚ) (a : Cx) : Cx := (s * a.1, s * a.2)

/-- Squared magnitude: `dot(z, z)` in GLSL; `|z|^2` for the generator's
bailout test (`mpmath.norm(z)` returns `|z|`, and for a nonnegative bailout
`|z| > bailout` is equivalent to `|z|^2 > bailout^2`). -/
def cnorm2 (a : Cx) : ℚ := a.1 * a.1 + a.2 * a.2

/-- GLSL `mix(a, b, t) = a*(1-t) + b*t`, componentwise on `vec2`. -/
def mix2 (a b : Cx) (t : ℚ) : Cx :=
  (a.1 * (1 - t) + b.1 * t, a.2 * (1 - t) + b.2 * t)

/-!
## Reference orbit generator (`FractalEngine.calculate_reference`)

The Python loop body is, for `i in range(self.max_iter)`:
```
dz = 2*z*dz + 1
z = z*z + c_ref
orbit_real.append(float(z.real)); orbit_imag.append(float(z.imag))
coeff = 2*z
deriv_real.append(float(coeff.real)); deriv_imag.append(float(coeff.imag))
if mpmath.norm(z) > self.bailout: break
```
Before the loop, `(0, 0)` is appended to the orbit arrays (and nothing to the
derivative arrays).  The parallel real/imag float lists are embedded as one
list of pairs.
-/

/-- The generator's main loop.  Arguments: remaining iterations, current `z`,
current `dz`, accumulated orbit samples, accumulated coefficient samples.
Returns the final (orbit, deriv) lists. -/
def calcRefLoop (c : Cx) (bailout : ℚ) :
    ℕ → Cx → Cx → List Cx → List Cx → List Cx × List Cx
  | 0, _, _, orbit, deriv => (orbit, deriv)
  | Nat.succ n, z, dz, orbit, deriv =>
    let dz2 := cadd (cmul (smul2 2 z) dz) (1, 0)
    let z2 := cadd (cmul z z) c
    let orbit2 := orbit ++ [z2]
    let deriv2 := deriv ++ [smul2 2 z2]
    if cnorm2 z2 > bailout * bailout then (orbit2, deriv2)
    else calcRefLoop c bailout n z2 dz2 orbit2 deriv2

/-- Result of `calculate_reference`: the orbit samples, the coefficient
("derivative") samples, and the returned `count = len(orbit_real)`. -/
structure RefData where
  orbit : List Cx
  deriv : List Cx
  count : ℕ
deriving DecidableEq, Repr

/-- `FractalEngine.calculate_reference` body after the `max_iter` parameter
handling: start from `z = 0`, `dz = 0`, orbit seeded with the first point
`(0, 0)`, run the loop, report `count = len(orbit_real)`. -/
def calculate_reference (c : Cx) (bailout : ℚ) (max_iter : ℕ) : RefData :=
  let res := calcRefLoop c bailout max_iter (0, 0) (0, 0) [(0, 0)] []
  { orbit := res.1, deriv := res.2, count := res.1.length }

/-!
## Engine state, view parsing and the rebase entry points

`FractalEngine.set_view` parses three decimal strings with `mpmath.mpf` and
assigns `self.cx`, `self.cy`, `self.zoom` in that order; a parse failure
raises, leaving the earlier assignments in place.  The decimal-string
parsing itself lives in the external `mpmath` library; it is modelled here
by `parseDecimal` (sign, decimal digits, optional fraction part), which is
what the spec's generator interface mandates at this boundary.
-/

/-- Numeric value of a digit character, `none` on a non-digit. -/
def digitVal (c : Char) : Option ℕ :=
  if c.isDigit then some (c.toNat - 48) else none

/-- Accumulate a digit string into a natural number; `none` on a non-digit. -/
def parseNatDigits : ℕ → List Char → Option ℕ
  | acc, [] => some acc
  | acc, c :: cs =>
    match digitVal c with
    | some d => parseNatDigits (acc * 10 + d) cs
    | none => none

/-- Modelled from the spec: the external `mpmath.mpf` decimal-string parsing
used by `FractalEngine.set_view` (the library is not part of the repository).
Accepts an unsigned decimal numeral with an optional fraction part; at least
one digit is required. -/
def parseUnsigned (cs : List Char) : Option ℚ :=
  if cs.contains '.' then
    let ip := cs.takeWhile (fun c => decide (c ≠ '.'))
    let fp := (cs.dropWhile (fun c => decide (c ≠ '.'))).drop 1
    if fp.contains '.' then none
    else if ip.isEmpty && fp.isEmpty then none
    else
      match parseNatDigits 0 ip, parseNatDigits 0 fp with
      | some i, some f => some ((i : ℚ) + (f : ℚ) / (10 : ℚ) ^ fp.length)
      | _, _ => none
  else if cs.isEmpty then none
  else (parseNatDigits 0 cs).map (fun i => (i : ℚ))

/-- Modelled from the spec: decimal-string parsing with an optional sign, the
generator-boundary format (`{center_real: decimal-string, ...}`). -/
def parseDecimal (s : String) : Option ℚ :=
  match s.toList with
  | [] => none
  | '-' :: rest => (parseUnsigned rest).map (fun q => -q)
  | '+' :: rest => parseUnsigned rest
  | cs => parseUnsigned cs

/-- The mutable state of `FractalEngine` relevant to view and generation. -/
structure Engine where
  cx : ℚ
  cy : ℚ
  zoom : ℚ
  max_iter : Int
  bailout : ℚ
  ref_orbit : List Cx
deriving DecidableEq, Repr

/-- `FractalEngine.__init__` state. -/
def Engine.init : Engine :=
  { cx := 0, cy := 0, zoom := 1, max_iter := 1000, bailout := 4, ref_orbit := [] }

/-- `FractalEngine.set_view`: parses and assigns `cx`, `cy`, `zoom` in order.
The first component is the raised error message (if any); the second is the
engine state afterwards — note that assignments made before a failing parse
persist, exactly as in the Python source. -/
def set_view (e : Engine) (cx_str cy_str zoom_str : String) :
    Option String × Engine :=
  match parseDecimal cx_str with
  | none => (some "ParseError: cx", e)
  | some cx =>
    let e1 : Engine := { e with cx := cx }
    match parseDecimal cy_str with
    | none => (some "ParseError: cy", e1)
    | some cy =>
      let e2 : Engine := { e1 with cy := cy }
      match parseDecimal zoom_str with
      | none => (some "ParseError: zoom", e2)
      | some z => (none, { e2 with zoom := z })

/-- `FractalEngine.calculate_reference`'s parameter handling: `if max_iter:`
is Python truthiness, so `None` and `0` both leave `self.max_iter` unchanged;
any other value is assigned.  The loop then runs `range(self.max_iter)`
iterations — empty when `self.max_iter ≤ 0` (hence `Int.toNat`). -/
def engineCalculateReference (e : Engine) (maxIterParam : Option Int) :
    Engine × RefData :=
  let e2 : Engine :=
    match maxIterParam with
    | some m => if m = 0 then e else { e with max_iter := m }
    | none => e
  (e2, calculate_reference (e2.cx, e2.cy) e2.bailout e2.max_iter.toNat)

/-- The generator's response (`ui_pro.generate_reference_orbit` return dict):
orbit data plus the echoed center strings. -/
structure GenResponse where
  data : RefData
  count : ℕ
  cx : String
  cy : String
deriving DecidableEq, Repr

/-- `ui_pro.generate_reference_orbit`: `set_view(cx, cy, "1.0")`, then assign
`max_iter`, then compute the orbit (`get_orbit_as_bytes` calls
`calculate_reference()` with no argument).  A parse exception propagates,
leaving the partially-updated engine state behind. -/
def generate_reference_orbit (e : Engine) (cx_str cy_str : String)
    (max_iter : Int) : Except String GenResponse × Engine :=
  match set_view e cx_str cy_str "1.0" with
  | (some msg, e1) => (Except.error msg, e1)
  | (none, e1) =>
    let e2 : Engine := { e1 with max_iter := max_iter }
    let res := engineCalculateReference e2 none
    (Except.ok { data := res.2, count := res.2.count, cx := cx_str, cy := cy_str },
      res.1)

/-- `ui_pro.handle_rebase`: empty coordinates are rejected up front; any
exception from generation is caught and returned as an error value. -/
def handle_rebase (e : Engine) (cx_str cy_str : String) :
    Except String GenResponse × Engine :=
  if cx_str = "" || cy_str = "" then (Except.error "Missing coordinates", e)
  else generate_reference_orbit e cx_str cy_str 10000
/-!
## The GLSL fragment shader's perturbation loop (`ui_pro.py`, `glslFragmentCode`)

```
vec2 delta_n = vec2(0.0);
float iter = 0.0;
bool escaped = false;
bool glitched = false;        // never assigned afterwards
vec2 final_z = vec2(0.0);
int maxRef = min(u_refCount, u_refCount2);
for(int i = 0; i < u_maxIter; i++) {
    if (i >= maxRef) break;
    vec2 Z_n = mix(Z_n1, Z_n2, u_morphBlend);          // texelFetch at index i
    vec2 linearVal = cmul(2.0 * Z_n, delta_n);
    vec2 quadroVal = csqr(delta_n);
    delta_n = linearVal + quadroVal + delta_c;
    vec2 z_abs = Z_n + delta_n;
    if (dot(z_abs, z_abs) > 256.0) { escaped = true; iter = float(i); final_z = z_abs; break; }
}
```
The loop is embedded with explicit fuel (the remaining trip count of the
`for`); `stopI` records the value of `i` when the loop exited.
-/

/-- `texelFetch` from an orbit texture: index `i` of the sample list. -/
def texFetch (orbit : List Cx) (i : ℕ) : Cx := orbit.getD i (0, 0)

/-- State of the shader invocation after the perturbation loop. -/
structure FragResult where
  delta : Cx
  iter : ℕ
  escaped : Bool
  glitched : Bool
  final_z : Cx
  stopI : ℕ
deriving DecidableEq, Repr

/-- The shader's `for` loop over the blended reference orbit. -/
def fragLoop (Z1 Z2 : List Cx) (blend : ℚ) (dc : Cx) (maxRef : ℕ) :
    ℕ → ℕ → Cx → FragResult
  | 0, i, delta =>
    { delta := delta, iter := 0, escaped := false, glitched := false,
      final_z := (0, 0), stopI := i }
  | Nat.succ fuel, i, delta =>
    if i ≥ maxRef then
      { delta := delta, iter := 0, escaped := false, glitched := false,
        final_z := (0, 0), stopI := i }
    else
      let Z_n := mix2 (texFetch Z1 i) (texFetch Z2 i) blend
      let linearVal := cmul (smul2 2 Z_n) delta
      let quadroVal := csqr delta
      let delta2 := cadd (cadd linearVal quadroVal) dc
      let z_abs := cadd Z_n delta2
      if cnorm2 z_abs > 256 then
        { delta := delta2, iter := i, escaped := true, glitched := false,
          final_z := z_abs, stopI := i }
      else fragLoop Z1 Z2 blend dc maxRef fuel (i + 1) delta2

/-- The shader `main` up to the coloring stage: run the loop from `i = 0`,
`delta_0 = 0`, with `maxRef = min(u_refCount, u_refCount2)`. -/
def fragMain (Z1 Z2 : List Cx) (blend : ℚ) (dc : Cx) (maxIter : ℕ) : FragResult :=
  fragLoop Z1 Z2 blend dc (min Z1.length Z2.length) maxIter 0 (0, 0)

/-- The three output branches after the loop: the `glitched` branch writes
the sentinel `vec4(0,0,0,1)`, the `escaped` branch the smooth-iteration
palette color, and the final `else` the ordinary non-escaping background
shade. -/
inductive FragColor where
  | sentinel
  | escapedPalette
  | background
deriving DecidableEq, Repr

/-- Branch selection of the shader's output stage. -/
def fragOutput (r : FragResult) : FragColor :=
  if r.glitched then FragColor.sentinel
  else if r.escaped then FragColor.escapedPalette
  else FragColor.background

/-- Spec-side orbit sample: the linear interpolation (by the morph blend
factor) of the primary and secondary orbit samples at index `n`. -/
def specZ (Z1 Z2 : List Cx) (blend : ℚ) (n : ℕ) : Cx :=
  mix2 (Z1.getD n (0, 0)) (Z2.getD n (0, 0)) blend

/-- Spec-side recurrence from the claim's words:
`delta_{n+1} = 2*Z_n*delta_n + delta_n^2 + delta_c`, `delta_0 = 0`. -/
def specDelta (Z1 Z2 : List Cx) (blend : ℚ) (dc : Cx) : ℕ → Cx
  | 0 => (0, 0)
  | Nat.succ n =>
    cadd (cadd (cmul (smul2 2 (specZ Z1 Z2 blend n)) (specDelta Z1 Z2 blend dc n))
      (cmul (specDelta Z1 Z2 blend dc n) (specDelta Z1 Z2 blend dc n))) dc

/-- The escape test at step `n`: after the update at index `n`, the shader
compares `|Z_n + delta_{n+1}|^2` against the bailout square `256`. -/
def escapesAt (Z1 Z2 : List Cx) (blend : ℚ) (dc : Cx) (n : ℕ) : Prop :=
  cnorm2 (cadd (specZ Z1 Z2 blend n) (specDelta Z1 Z2 blend dc (n + 1))) > 256

/-!
## Morph blend (`ui_pro.py`, `render`)

```
const morphSpeed = 0.1;
const baseMorphBlend = (Math.sin(accumulatedTime * morphSpeed * morphIntensity) + 1.0) * 0.5;
const autoBoost = window.autoMorphBoost || 0;
const morphBlend = Math.min(1.0, baseMorphBlend + autoBoost);
```
`autoMorphBoost` starts absent (read as 0) and is only ever changed by the
black-screen detector: incremented by `0.02` and clamped at `1.0` while the
screen stays dark, decremented by `0.001` and clamped at `0` as complexity
returns, or reset to `0` by the hard zoom-reset fallback.  JavaScript numbers
are modelled as reals.
-/

/-- The boost increment applied while the screen is dark:
`autoMorphBoost += 0.02; if (autoMorphBoost > 1.0) autoMorphBoost = 1.0`. -/
noncomputable def boostUp (b : ℝ) : ℝ :=
  if b + 0.02 > 1 then 1 else b + 0.02

/-- The boost decay applied when complexity returns:
`autoMorphBoost -= 0.001; if (autoMorphBoost < 0) autoMorphBoost = 0`. -/
noncomputable def boostDecay (b : ℝ) : ℝ :=
  if b - 0.001 < 0 then 0 else b - 0.001

/-- The auto-boost values reachable by the frame-update rules: start at `0`
(the `|| 0` default), any number of increments, decays, and hard resets. -/
inductive ReachableBoost : ℝ → Prop where
  | start : ReachableBoost 0
  | boost (b : ℝ) : ReachableBoost b → ReachableBoost (boostUp b)
  | decay (b : ℝ) : ReachableBoost b → ReachableBoost (boostDecay b)
  | reset (b : ℝ) : ReachableBoost b → ReachableBoost 0

/-- The time-based oscillator term `(sin(t * 0.1 * intensity) + 1) * 0.5`. -/
noncomputable def baseMorphBlend (accumulatedTime morphIntensity : ℝ) : ℝ :=
  (Real.sin (accumulatedTime * 0.1 * morphIntensity) + 1) * 0.5

/-- The blend factor handed to the iterator:
`min(1.0, baseMorphBlend + autoBoost)`. -/
noncomputable def morphBlend (accumulatedTime morphIntensity autoBoost : ℝ) : ℝ :=
  min 1 (baseMorphBlend accumulatedTime morphIntensity + autoBoost)

/-!
## Audio ripple pool (`ui_pro.py`, `render`)

```
const MAX_RIPPLES = 6;
// on a transient:
window.ripples.push({ birthTime: globalAudioTime, intensity: intensity, type: rippleType });
while (window.ripples.length > MAX_RIPPLES) { window.ripples.shift(); }
// every audio frame:
window.ripples = window.ripples.filter(r => {
    r.intensity *= 0.96;
    return r.intensity > 0.005;
});
```
New ripples are appended at the back; `shift()` removes the front, i.e. the
oldest.  A frame step optionally spawns one ripple (when the transient
detector fires) and then decays and filters the pool.
-/

/-- Ripple category: which band dominated the transient. -/
inductive RippleKind where
  | bass
  | mid
deriving DecidableEq, Repr

/-- One entry of `window.ripples`. -/
structure RippleEvent where
  birthTime : ℚ
  intensity : ℚ
  kind : RippleKind
deriving DecidableEq, Repr

/-- Pool capacity `MAX_RIPPLES`. -/
def MAX_RIPPLES : ℕ := 6

/-- `while (ripples.length > MAX_RIPPLES) ripples.shift()`: drop from the
front until the pool is back within capacity. -/
def evictOldest : List RippleEvent → List RippleEvent
  | [] => []
  | r :: rest =>
    if (r :: rest).length > MAX_RIPPLES then evictOldest rest else r :: rest

/-- Spawning a ripple: push at the back, then evict from the front. -/
def spawnRipple (pool : List RippleEvent) (r : RippleEvent) : List RippleEvent :=
  evictOldest (pool ++ [r])

/-- The per-frame decay-and-filter pass: multiply every intensity by `0.96`
and keep only ripples still above the `0.005` floor. -/
def decayRipples (pool : List RippleEvent) : List RippleEvent :=
  (pool.map (fun r => { r with intensity := r.intensity * (96/100) })).filter
    (fun r => decide (r.intensity > 5/1000))

/-- One frame of ripple-pool evolution: an optional spawned transient,
followed by decay and removal. -/
def rippleFrame (pool : List RippleEvent) (beat : Option RippleEvent) :
    List RippleEvent :=
  decayRipples (match beat with
    | some r => spawnRipple pool r
    | none => pool)

/-- A whole run: fold the frame step over a list of per-frame transient
inputs, starting from the empty pool (`window.ripples = []`). -/
def runRippleFrames (beats : List (Option RippleEvent)) : List RippleEvent :=
  beats.foldl rippleFrame []

/-!
## Orbit codec
(`FractalEngine.get_orbit_as_bytes` and `base64ToFloat32Array` in `ui_pro.py`)

The Python side serializes each float32 array with
`base64.b64encode(arr.tobytes())`; the JS side inverts it with
`window.atob` and a `Float32Array` view over the resulting bytes.  A float32
sample is identified with its 32-bit pattern (a natural number below `2^32`);
`tobytes()` is the little-endian 4-byte serialization of those patterns, and
the base64 coding is the standard RFC 4648 alphabet with `=` padding used by
both `base64.b64encode` and `atob`.
-/

/-- Little-endian bytes of one 32-bit float pattern (`tobytes()` per
element). -/
def word32ToBytes (w : ℕ) : List ℕ :=
  [w % 256, w / 256 % 256, w / 65536 % 256, w / 16777216 % 256]

/-- `numpy.ndarray.tobytes()` for a float32 array of bit patterns. -/
def wordsToBytes : List ℕ → List ℕ
  | [] => []
  | w :: ws => word32ToBytes w ++ wordsToBytes ws

/-- `new Float32Array(bytes.buffer)`: reads consecutive little-endian 4-byte
groups (any trailing partial group is dropped). -/
def bytesToWords : List ℕ → List ℕ
  | b0 :: b1 :: b2 :: b3 :: rest =>
    (b0 + 256 * b1 + 65536 * b2 + 16777216 * b3) :: bytesToWords rest
  | _ => []

/-- The standard base64 alphabet used by `base64.b64encode` and `atob`. -/
def b64Alphabet : List Char :=
  ['A', 'B', 'C', 'D', 'E', 'F', 'G', 'H', 'I', 'J', 'K', 'L', 'M',
   'N', 'O', 'P', 'Q', 'R', 'S', 'T', 'U', 'V', 'W', 'X', 'Y', 'Z',
   'a', 'b', 'c', 'd', 'e', 'f', 'g', 'h', 'i', 'j', 'k', 'l', 'm',
   'n', 'o', 'p', 'q', 'r', 's', 't', 'u', 'v', 'w', 'x', 'y', 'z',
   '0', '1', '2', '3', '4', '5', '6', '7', '8', '9', '+', '/']

/-- Character for a sextet value. -/
def encodeB64Char (n : ℕ) : Char := b64Alphabet.getD n '='

/-- Position of a character in a list (first occurrence). -/
def indexOfChar (c : Char) : List Char → ℕ
  | [] => 0
  | d :: ds => if d = c then 0 else indexOfChar c ds + 1

/-- Sextet value of a base64 character. -/
def decodeB64Char (c : Char) : ℕ := indexOfChar c b64Alphabet

/-- `base64.b64encode`: three bytes become four characters; a trailing group
of one or two bytes is padded with `=`. -/
def b64encode : List ℕ → List Char
  | b0 :: b1 :: b2 :: rest =>
    let n := b0 * 65536 + b1 * 256 + b2
    encodeB64Char (n / 262144) :: encodeB64Char (n / 4096 % 64) ::
      encodeB64Char (n / 64 % 64) :: encodeB64Char (n % 64) :: b64encode rest
  | [b0, b1] =>
    let n := b0 * 65536 + b1 * 256
    [encodeB64Char (n / 262144), encodeB64Char (n / 4096 % 64),
      encodeB64Char (n / 64 % 64), '=']
  | [b0] =>
    let n := b0 * 65536
    [encodeB64Char (n / 262144), encodeB64Char (n / 4096 % 64), '=', '=']
  | [] => []

/-- `window.atob`: four characters back to three bytes, fewer at the padded
tail. -/
def b64decode : List Char → List ℕ
  | c0 :: c1 :: c2 :: c3 :: rest =>
    if c2 = '=' then
      [decodeB64Char c0 * 4 + decodeB64Char c1 / 16]
    else if c3 = '=' then
      let n := decodeB64Char c0 * 262144 + decodeB64Char c1 * 4096 +
        decodeB64Char c2 * 64
      [n / 65536, n / 256 % 256]
    else
      let n := decodeB64Char c0 * 262144 + decodeB64Char c1 * 4096 +
        decodeB64Char c2 * 64 + decodeB64Char c3
      n / 65536 :: n / 256 % 256 :: n % 256 :: b64decode rest
  | _ => []

/-- The codec's encoding of one orbit array
(`base64.b64encode(arr.tobytes()).decode('utf-8')`). -/
def encodeOrbitArray (ws : List ℕ) : List Char := b64encode (wordsToBytes ws)

/-- The renderer's decoding of one orbit array (`base64ToFloat32Array`). -/
def decodeOrbitArray (cs : List Char) : List ℕ := bytesToWords (b64decode cs)


/-!
## Generator lemmas
-/

/-- The loop only appends to the orbit list: the result extends the
accumulator by at most one sample per remaining iteration. -/
theorem calcRefLoop_orbit_extends (c : Cx) (bailout : ℚ) :
    ∀ (n : ℕ) (z dz : Cx) (orbit deriv : List Cx),
      ∃ t : List Cx,
        (calcRefLoop c bailout n z dz orbit deriv).1 = orbit ++ t ∧
          t.length ≤ n := by
  intro n
  induction n with
  | zero =>
    intro z dz orbit deriv
    exact ⟨[], by simp [calcRefLoop]⟩
  | succ n ih =>
    intro z dz orbit deriv
    rw [calcRefLoop]
    split
    · exact ⟨[cadd (cmul z z) c], by simp⟩
    · obtain ⟨t, ht, hlen⟩ := ih (cadd (cmul z z) c)
        (cadd (cmul (smul2 2 z) dz) (1, 0)) (orbit ++ [cadd (cmul z z) c]) (deriv ++ [smul2 2 (cadd (cmul z z) c)])
      exact ⟨cadd (cmul z z) c :: t, by simp [ht], by simpa using Nat.succ_le_succ hlen⟩

/-- Alignment invariant of the loop: the orbit list stays one longer than the
coefficient list, and each coefficient equals twice the orbit sample one
index later (both lists are appended to in lockstep, the orbit having been
seeded with the extra initial sample `(0,0)`). -/
theorem calcRefLoop_deriv_aligned (c : Cx) (bailout : ℚ) :
    ∀ (n : ℕ) (z dz : Cx) (orbit deriv : List Cx),
      orbit.length = deriv.length + 1 →
      (∀ k, k < deriv.length →
        deriv.getD k (0, 0) = smul2 2 (orbit.getD (k + 1) (0, 0))) →
      (calcRefLoop c bailout n z dz orbit deriv).1.length =
        (calcRefLoop c bailout n z dz orbit deriv).2.length + 1 ∧
      ∀ k, k < (calcRefLoop c bailout n z dz orbit deriv).2.length →
        (calcRefLoop c bailout n z dz orbit deriv).2.getD k (0, 0) =
          smul2 2 ((calcRefLoop c bailout n z dz orbit deriv).1.getD (k + 1) (0, 0)) := by
  intro n
  induction n with
  | zero =>
    intro z dz orbit deriv hlen hk
    exact ⟨by simpa [calcRefLoop] using hlen, by simpa [calcRefLoop] using hk⟩
  | succ n ih =>
    intro z dz orbit deriv hlen hk
    have hstep : ∀ (w : Cx),
        (orbit ++ [w]).length = (deriv ++ [smul2 2 w]).length + 1 ∧
        ∀ k, k < (deriv ++ [smul2 2 w]).length →
          (deriv ++ [smul2 2 w]).getD k (0, 0) =
            smul2 2 ((orbit ++ [w]).getD (k + 1) (0, 0)) := by
      intro w
      constructor
      · simp [hlen]
      · intro k hk2
        simp only [List.length_append, List.length_singleton] at hk2
        rcases Nat.lt_or_ge k deriv.length with hlt | hge
        · rw [List.getD_append _ _ _ _ hlt,
            List.getD_append _ _ _ _ (by omega : k + 1 < orbit.length)]
          exact hk k hlt
        · have hke : k = deriv.length := by omega
          rw [hke, List.getD_append_right _ _ _ _ (le_refl _),
            List.getD_append_right _ _ _ _
              (by omega : orbit.length ≤ deriv.length + 1)]
          simp [hlen]
    rw [calcRefLoop]
    split
    · exact hstep _
    · exact ih _ _ _ _ (hstep _).1 (hstep _).2

/-- Cardioid invariant for the loop at `c = (-3/4, 0)`, bailout `4`: starting
from a real `z` in `[-3/4, 0]` with every accumulated sample also real in
`[-3/4, 0]`, the squared magnitude never exceeds `16`, so the break never
fires: the loop runs all `n` remaining iterations, appending one sample each,
and every resulting sample is real in `[-3/4, 0]`. -/
theorem calcRefLoop_cardioid (n : ℕ) :
    ∀ (z dz : Cx) (orbit deriv : List Cx),
      z.2 = 0 → -3/4 ≤ z.1 → z.1 ≤ 0 →
      (∀ w ∈ orbit, w.2 = 0 ∧ -3/4 ≤ w.1 ∧ w.1 ≤ 0) →
      (calcRefLoop ((-3)/4, 0) 4 n z dz orbit deriv).1.length = orbit.length + n ∧
      ∀ w ∈ (calcRefLoop ((-3)/4, 0) 4 n z dz orbit deriv).1,
        w.2 = 0 ∧ -3/4 ≤ w.1 ∧ w.1 ≤ 0 := by
  induction n with
  | zero =>
    intro z dz orbit deriv _ _ _ horb
    exact ⟨by simp [calcRefLoop], by simpa [calcRefLoop] using horb⟩
  | succ n ih =>
    intro z dz orbit deriv him hlo hhi horb
    have hz2 : cadd (cmul z z) ((-3)/4, 0) = (z.1 * z.1 + (-3)/4, 0) := by
      simp [cadd, cmul, him]
    have hsq_lo : (0:ℚ) ≤ z.1 * z.1 := mul_self_nonneg z.1
    have hsq_hi : z.1 * z.1 ≤ 9/16 := by nlinarith
    have hnoesc : ¬ cnorm2 (cadd (cmul z z) ((-3)/4, 0)) > (4:ℚ) * 4 := by
      rw [hz2]
      simp only [cnorm2, not_lt]
      nlinarith
    have horb2 : ∀ w ∈ orbit ++ [cadd (cmul z z) ((-3)/4, 0)],
        w.2 = 0 ∧ -3/4 ≤ w.1 ∧ w.1 ≤ 0 := by
      intro w hw
      rcases List.mem_append.mp hw with h | h
      · exact horb w h
      · have : w = cadd (cmul z z) ((-3)/4, 0) := by simpa using h
        rw [this, hz2]
        refine ⟨rfl, by nlinarith, by nlinarith⟩
    rw [calcRefLoop]
    simp only [if_neg hnoesc]
    have := ih (cadd (cmul z z) ((-3)/4, 0))
      (cadd (cmul (smul2 2 z) dz) (1, 0))
      (orbit ++ [cadd (cmul z z) ((-3)/4, 0)])
      (deriv ++ [smul2 2 (cadd (cmul z z) ((-3)/4, 0))])
      (by rw [hz2]) (by rw [hz2]; dsimp; nlinarith) (by rw [hz2]; dsimp; nlinarith)
      horb2
    refine ⟨?_, this.2⟩
    rw [this.1]
    simp
    omega

/-- C3: for every generated reference orbit (any center, any bailout, any
`max_iterations ≥ 1`), the first stored sample is `(0, 0)` and the returned
count is at most `max_iterations + 1`. -/
theorem C3_first_sample_and_count (c : Cx) (bailout : ℚ) (n : ℕ)
    (_hn : 1 ≤ n) :
    (calculate_reference c bailout n).orbit.head? = some ((0 : ℚ), (0 : ℚ)) ∧
    (calculate_reference c bailout n).count ≤ n + 1 := by
  obtain ⟨t, ht, hlen⟩ :=
    calcRefLoop_orbit_extends c bailout n (0, 0) (0, 0) [(0, 0)] []
  constructor
  · show (calcRefLoop c bailout n (0, 0) (0, 0) [(0, 0)] []).1.head? = _
    rw [ht]
    simp
  · show (calcRefLoop c bailout n (0, 0) (0, 0) [(0, 0)] []).1.length ≤ n + 1
    rw [ht]
    simp
    omega

/-- Witness for C3 at center `(0,0)`, bailout `4`, `max_iterations = 1`. -/
theorem C3_first_sample_and_count_witness :
    (calculate_reference (0, 0) 4 1).orbit.head? = some ((0 : ℚ), (0 : ℚ)) ∧
    (calculate_reference (0, 0) 4 1).count ≤ 2 :=
  C3_first_sample_and_count (0, 0) 4 1 (by decide)


/-- Concrete evaluation of the generator at center `(-3/4, 0)`, bailout `4`,
one iteration: the orbit holds `Z_0 = (0,0)` and `Z_1 = (-3/4, 0)`, and the
coefficient array holds the single entry `2*Z_1 = (-3/2, 0)`. -/
theorem calcRef_eval_simple :
    calculate_reference ((-3)/4, 0) 4 1 =
      { orbit := [(0, 0), ((-3)/4, 0)], deriv := [((-3)/2, 0)], count := 2 } := by
  norm_num [calculate_reference, calcRefLoop, cadd, cmul, smul2, cnorm2]

/-- C2 as stated is false: the coefficient array is shifted by one relative
to the orbit samples.  At center `(-3/4, 0)` with one iteration, index `0`
is within both arrays, but `deriv[0] = 2*Z_1 = (-3/2, 0)` while
`2*Z_0 = (0, 0)`. -/
theorem C2_counterexample :
    ¬ (∀ n : ℕ,
        n < (calculate_reference ((-3)/4, 0) 4 1).deriv.length →
        n < (calculate_reference ((-3)/4, 0) 4 1).orbit.length →
        (calculate_reference ((-3)/4, 0) 4 1).deriv.getD n (0, 0) =
          smul2 2 ((calculate_reference ((-3)/4, 0) 4 1).orbit.getD n (0, 0))) := by
  intro h
  have h0 := h 0 (by simp [calcRef_eval_simple]) (by simp [calcRef_eval_simple])
  rw [calcRef_eval_simple] at h0
  simp only [List.getD_cons_zero, smul2] at h0
  have := congrArg Prod.fst h0
  norm_num at this

/-- C2 amended: the coefficient array is parallel to the *tail* of the orbit:
the orbit is one sample longer, and `coefficient[n] = 2*Z_{n+1}` — a pure
function of the orbit sample at index `n + 1`, not index `n`. -/
theorem C2_coefficient_shifted (c : Cx) (bailout : ℚ) (n : ℕ) :
    (calculate_reference c bailout n).orbit.length =
      (calculate_reference c bailout n).deriv.length + 1 ∧
    ∀ k, k < (calculate_reference c bailout n).deriv.length →
      (calculate_reference c bailout n).deriv.getD k (0, 0) =
        smul2 2 ((calculate_reference c bailout n).orbit.getD (k + 1) (0, 0)) :=
  calcRefLoop_deriv_aligned c bailout n (0, 0) (0, 0) [(0, 0)] []
    (by simp) (by simp)

/-- Witness for the amended C2 at center `(-3/4, 0)`, one iteration. -/
theorem C2_coefficient_shifted_witness :
    (calculate_reference ((-3)/4, 0) 4 1).deriv.getD 0 (0, 0) =
      smul2 2 ((calculate_reference ((-3)/4, 0) 4 1).orbit.getD 1 (0, 0)) :=
  (C2_coefficient_shifted ((-3)/4, 0) 4 1).2 0 (by simp [calcRef_eval_simple])

/-- Unfolding equation: the orbit field of `calculate_reference` is the first
component of the loop result (stated with variable iteration count so that
rewriting never forces the loop to reduce). -/
theorem calculate_reference_orbit (c : Cx) (b : ℚ) (n : ℕ) :
    (calculate_reference c b n).orbit =
      (calcRefLoop c b n (0, 0) (0, 0) [(0, 0)] []).1 := rfl

/-- Unfolding equation for the count field of `calculate_reference`. -/
theorem calculate_reference_count (c : Cx) (b : ℚ) (n : ℕ) :
    (calculate_reference c b n).count =
      (calcRefLoop c b n (0, 0) (0, 0) [(0, 0)] []).1.length := rfl

/-- C8: generating the reference orbit at center `(-0.75, 0)` with
`max_iterations = 1000` never triggers the bailout escape test — every
stored sample fails the loop's break condition — and the loop runs to
completion, storing one sample per iteration (`count = 1001`). -/
theorem C8_cardioid_never_escapes :
    (calculate_reference ((-3)/4, 0) 4 1000).count = 1001 ∧
    ∀ w ∈ (calculate_reference ((-3)/4, 0) 4 1000).orbit,
      ¬ (cnorm2 w > (4 : ℚ) * 4) := by
  have hinit : ∀ w ∈ [((0 : ℚ), (0 : ℚ))], w.2 = 0 ∧ -3/4 ≤ w.1 ∧ w.1 ≤ 0 := by
    intro w hw
    have : w = ((0 : ℚ), (0 : ℚ)) := by simpa using hw
    rw [this]
    norm_num
  have h := calcRefLoop_cardioid 1000 (0, 0) (0, 0) [(0, 0)] []
    rfl (by norm_num) (by norm_num) hinit
  constructor
  · rw [calculate_reference_count, h.1]
    rfl
  · rw [calculate_reference_orbit]
    intro w hw
    obtain ⟨him, hlo, hhi⟩ := h.2 w hw
    simp only [cnorm2, him, not_lt]
    nlinarith

/-!
## Parse evaluations used by the error-handling claims
-/

/-- `"zzz"` is malformed. -/
theorem parseDecimal_bad : parseDecimal "zzz" = none := rfl

/-- `"0.5"` parses to `1/2`. -/
theorem parseDecimal_half : parseDecimal "0.5" = some (1/2) := by
  have hform : parseDecimal "0.5" =
      some (((0:ℕ):ℚ) + ((5:ℕ):ℚ) / (10:ℚ) ^ (1:ℕ)) := rfl
  rw [hform]
  norm_num

/-- `"-0.75"` parses to `-(3/4)`. -/
theorem parseDecimal_neg34 : parseDecimal "-0.75" = some (-(3/4)) := by
  have hform : parseDecimal "-0.75" =
      some (-(((0:ℕ):ℚ) + ((75:ℕ):ℚ) / (10:ℚ) ^ (2:ℕ))) := rfl
  rw [hform]
  norm_num

/-- `"0.0"` parses to `0`. -/
theorem parseDecimal_zero : parseDecimal "0.0" = some 0 := by
  have hform : parseDecimal "0.0" =
      some (((0:ℕ):ℚ) + ((0:ℕ):ℚ) / (10:ℚ) ^ (1:ℕ)) := rfl
  rw [hform]
  norm_num

/-- `"1.0"` (the constant zoom string passed by
`generate_reference_orbit`) parses to `1`. -/
theorem parseDecimal_one : parseDecimal "1.0" = some 1 := by
  have hform : parseDecimal "1.0" =
      some (((1:ℕ):ℚ) + ((0:ℕ):ℚ) / (10:ℚ) ^ (1:ℕ)) := rfl
  rw [hform]
  norm_num

/-- When both center strings parse, `generate_reference_orbit` returns the
orbit generated at the parsed center with the stored bailout and the `toNat`
of the requested iteration count (negative counts give an empty Python
`range`). -/
theorem generate_ok_of_parses (e : Engine) (cxs cys : String) (m : Int)
    (q1 q2 : ℚ) (h1 : parseDecimal cxs = some q1)
    (h2 : parseDecimal cys = some q2) :
    (generate_reference_orbit e cxs cys m).1 =
      Except.ok { data := calculate_reference (q1, q2) e.bailout m.toNat,
                  count := (calculate_reference (q1, q2) e.bailout m.toNat).count,
                  cx := cxs, cy := cys } := by
  simp [generate_reference_orbit, set_view, h1, h2, parseDecimal_one,
    engineCalculateReference]

/-- A failing `cx` parse aborts generation before any assignment. -/
theorem generate_cx_fails (e : Engine) (cxs cys : String) (m : Int)
    (h1 : parseDecimal cxs = none) :
    generate_reference_orbit e cxs cys m = (Except.error "ParseError: cx", e) := by
  simp [generate_reference_orbit, set_view, h1]

/-- A failing `cy` parse aborts generation, but only after `cx` was already
assigned (the Python `set_view` mutates `self.cx` before parsing `cy`). -/
theorem generate_cy_fails (e : Engine) (cxs cys : String) (m : Int) (q : ℚ)
    (h1 : parseDecimal cxs = some q) (h2 : parseDecimal cys = none) :
    generate_reference_orbit e cxs cys m =
      (Except.error "ParseError: cy", { e with cx := q }) := by
  simp [generate_reference_orbit, set_view, h1, h2]

/-- With zero remaining iterations the generator returns the single seeded
sample, so the reported count is `1`. -/
theorem count_zero_iter (c : Cx) (b : ℚ) : (calculate_reference c b 0).count = 1 := rfl

/-- C5 as stated is false at the concrete well-formed center
`("-0.75", "0.0")` with `max_iterations = -1`: generation succeeds and
returns an orbit with one sample rather than an error. -/
theorem C5_counterexample :
    (parseDecimal "-0.75").isSome = true ∧ (parseDecimal "0.0").isSome = true ∧
    (generate_reference_orbit Engine.init "-0.75" "0.0" (-1)).1 =
      Except.ok { data := calculate_reference (-(3/4), 0) 4 0,
                  count := 1, cx := "-0.75", cy := "0.0" } := by
  refine ⟨rfl, rfl, ?_⟩
  rw [generate_ok_of_parses Engine.init "-0.75" "0.0" (-1) (-(3/4)) 0
    parseDecimal_neg34 parseDecimal_zero]
  rfl

/-- C5 amended: generation fails exactly when one of the center strings is
malformed.  `max_iterations ≤ 0` is *not* rejected: a negative value yields a
successful single-sample orbit (`count = 1`, the Python `range` is empty),
and a zero value passed to `calculate_reference` is falsy, leaving the
engine's previous `max_iter` in effect. -/
theorem C5_no_max_iter_validation (e : Engine) (cxs cys : String) (m : Int) :
    ((∃ r, (generate_reference_orbit e cxs cys m).1 = Except.ok r) ↔
      (parseDecimal cxs).isSome = true ∧ (parseDecimal cys).isSome = true)
    ∧ (m < 0 → ∀ q1 q2, parseDecimal cxs = some q1 → parseDecimal cys = some q2 →
        ∃ r, (generate_reference_orbit e cxs cys m).1 = Except.ok r ∧ r.count = 1)
    ∧ (∀ e2 : Engine, (engineCalculateReference e2 (some 0)).1 = e2) := by
  refine ⟨?_, ?_, ?_⟩
  · constructor
    · rintro ⟨r, hr⟩
      cases h1 : parseDecimal cxs with
      | none => rw [generate_cx_fails e cxs cys m h1] at hr; exact absurd hr (by simp)
      | some q1 =>
        cases h2 : parseDecimal cys with
        | none =>
          rw [show (generate_reference_orbit e cxs cys m).1 = Except.error "ParseError: cy" from
            congrArg Prod.fst (generate_cy_fails e cxs cys m q1 h1 h2)] at hr
          exact absurd hr (by simp)
        | some q2 => simp [h1, h2]
    · rintro ⟨hx, hy⟩
      obtain ⟨q1, h1⟩ := Option.isSome_iff_exists.mp hx
      obtain ⟨q2, h2⟩ := Option.isSome_iff_exists.mp hy
      exact ⟨_, generate_ok_of_parses e cxs cys m q1 q2 h1 h2⟩
  · intro hm q1 q2 h1 h2
    refine ⟨_, generate_ok_of_parses e cxs cys m q1 q2 h1 h2, ?_⟩
    have hz : m.toNat = 0 := by omega
    simp only [hz]
    exact count_zero_iter (q1, q2) e.bailout
  · intro e2
    simp [engineCalculateReference]

/-- Witness for the amended C5: at engine start state with center strings
`("-0.75", "0.0")` and `max_iterations = -1`, generation succeeds with a
one-sample orbit. -/
theorem C5_no_max_iter_validation_witness :
    ∃ r, (generate_reference_orbit Engine.init "-0.75" "0.0" (-1)).1 =
      Except.ok r ∧ r.count = 1 :=
  (C5_no_max_iter_validation Engine.init "-0.75" "0.0" (-1)).2.1
    (by decide) (-(3/4)) 0 parseDecimal_neg34 parseDecimal_zero

/-- C6 as stated is false: a rebase request with a well-formed `cx` and a
malformed `cy` returns an error, yet mutates the engine's center — `cx` is
overwritten before the failing parse.  Concretely, from the initial state,
`handle_rebase(engine, "0.5", "zzz")` errors but leaves `engine.cx = 1/2`. -/
theorem C6_counterexample :
    (handle_rebase Engine.init "0.5" "zzz").1 = Except.error "ParseError: cy" ∧
    (handle_rebase Engine.init "0.5" "zzz").2.cx ≠ Engine.init.cx := by
  have h : handle_rebase Engine.init "0.5" "zzz" =
      (Except.error "ParseError: cy", { Engine.init with cx := 1/2 }) := by
    show generate_reference_orbit Engine.init "0.5" "zzz" 10000 = _
    exact generate_cy_fails Engine.init "0.5" "zzz" 10000 (1/2)
      parseDecimal_half parseDecimal_bad
  rw [h]
  refine ⟨rfl, ?_⟩
  show (1 : ℚ)/2 ≠ 0
  norm_num

/-- C6 amended: a failed rebase request always surfaces an error to the
caller and never touches the engine's zoom, iteration cap, or stored orbit
data; the engine state is fully unchanged when the coordinates are missing
or `cx` itself is malformed, but when `cx` is well-formed and `cy` is
malformed the center coordinate `cx` has already been overwritten with the
parsed value by the time the error is raised. -/
theorem C6_rebase_failure_isolation (e : Engine) (cxs cys : String) :
    (cxs = "" ∨ cys = "" →
      handle_rebase e cxs cys = (Except.error "Missing coordinates", e))
    ∧ (cxs ≠ "" → cys ≠ "" → parseDecimal cxs = none →
      handle_rebase e cxs cys = (Except.error "ParseError: cx", e))
    ∧ (∀ q, cxs ≠ "" → cys ≠ "" → parseDecimal cxs = some q →
      parseDecimal cys = none →
      handle_rebase e cxs cys = (Except.error "ParseError: cy", { e with cx := q })) := by
  refine ⟨?_, ?_, ?_⟩
  · intro hempty
    rcases hempty with h | h
    · simp [handle_rebase, h]
    · simp [handle_rebase, h]
  · intro hne1 hne2 h1
    rw [show handle_rebase e cxs cys = generate_reference_orbit e cxs cys 10000 from by
      simp [handle_rebase, hne1, hne2]]
    exact generate_cx_fails e cxs cys 10000 h1
  · intro q hne1 hne2 h1 h2
    rw [show handle_rebase e cxs cys = generate_reference_orbit e cxs cys 10000 from by
      simp [handle_rebase, hne1, hne2]]
    exact generate_cy_fails e cxs cys 10000 q h1 h2

/-- Witness for the amended C6: from the initial engine state with a
well-formed `cx = "0.5"` and malformed `cy = "zzz"`, the rebase fails with
an error and the resulting state is the old one with only `cx` replaced. -/
theorem C6_rebase_failure_isolation_witness :
    handle_rebase Engine.init "0.5" "zzz" =
      (Except.error "ParseError: cy", { Engine.init with cx := 1/2 }) :=
  (C6_rebase_failure_isolation Engine.init "0.5" "zzz").2.2 (1/2)
    (by decide) (by decide) parseDecimal_half parseDecimal_bad

/-- `csqr` agrees with complex self-multiplication. -/
theorem csqr_eq_cmul (a : Cx) : csqr a = cmul a a := by
  unfold csqr cmul
  congr 1
  ring

/-- Loop invariant for the shader's perturbation loop.  Starting at index
`i` with `delta = specDelta i`, no escape before `i`, and `i ≤ maxRef`:
- if the loop ends with `escaped = true`, it stopped at the least escaping
  index, strictly below `min (i+fuel) maxRef`, with
  `delta = specDelta (stopI+1)`, `iter = stopI`, and
  `final_z = Z_stopI + delta`;
- otherwise it stopped exactly at `min (i+fuel) maxRef` with
  `delta = specDelta stopI` and `iter` still `0`. -/
theorem fragLoop_spec (Z1 Z2 : List Cx) (blend : ℚ) (dc : Cx) (maxRef : ℕ) :
    ∀ (fuel i : ℕ),
      (∀ m, m < i → ¬ escapesAt Z1 Z2 blend dc m) →
      i ≤ maxRef →
      (((fragLoop Z1 Z2 blend dc maxRef fuel i
            (specDelta Z1 Z2 blend dc i)).escaped = true →
        (fragLoop Z1 Z2 blend dc maxRef fuel i
            (specDelta Z1 Z2 blend dc i)).stopI < min (i + fuel) maxRef ∧
        escapesAt Z1 Z2 blend dc
          (fragLoop Z1 Z2 blend dc maxRef fuel i
            (specDelta Z1 Z2 blend dc i)).stopI ∧
        (∀ m, m < (fragLoop Z1 Z2 blend dc maxRef fuel i
            (specDelta Z1 Z2 blend dc i)).stopI → ¬ escapesAt Z1 Z2 blend dc m) ∧
        (fragLoop Z1 Z2 blend dc maxRef fuel i
            (specDelta Z1 Z2 blend dc i)).delta =
          specDelta Z1 Z2 blend dc
            ((fragLoop Z1 Z2 blend dc maxRef fuel i
              (specDelta Z1 Z2 blend dc i)).stopI + 1) ∧
        (fragLoop Z1 Z2 blend dc maxRef fuel i
            (specDelta Z1 Z2 blend dc i)).iter =
          (fragLoop Z1 Z2 blend dc maxRef fuel i
            (specDelta Z1 Z2 blend dc i)).stopI) ∧
      ((fragLoop Z1 Z2 blend dc maxRef fuel i
            (specDelta Z1 Z2 blend dc i)).escaped = false →
        (fragLoop Z1 Z2 blend dc maxRef fuel i
            (specDelta Z1 Z2 blend dc i)).stopI = min (i + fuel) maxRef ∧
        (∀ m, m < (fragLoop Z1 Z2 blend dc maxRef fuel i
            (specDelta Z1 Z2 blend dc i)).stopI → ¬ escapesAt Z1 Z2 blend dc m) ∧
        (fragLoop Z1 Z2 blend dc maxRef fuel i
            (specDelta Z1 Z2 blend dc i)).delta =
          specDelta Z1 Z2 blend dc
            (fragLoop Z1 Z2 blend dc maxRef fuel i
              (specDelta Z1 Z2 blend dc i)).stopI)) := by
  intro fuel
  induction fuel with
  | zero =>
    intro i hnoesc hle
    rw [fragLoop]
    refine ⟨by intro hcontra; exact absurd hcontra (by simp), ?_⟩
    intro _
    exact ⟨(by omega : i = min (i + 0) maxRef), hnoesc, rfl⟩
  | succ fuel ih =>
    intro i hnoesc hle
    rw [fragLoop]
    by_cases hge : i ≥ maxRef
    · rw [if_pos hge]
      refine ⟨by intro hcontra; exact absurd hcontra (by simp), ?_⟩
      intro _
      exact ⟨(by omega : i = min (i + (fuel + 1)) maxRef), hnoesc, rfl⟩
    · rw [if_neg hge]
      have hZ : mix2 (texFetch Z1 i) (texFetch Z2 i) blend =
          specZ Z1 Z2 blend i := rfl
      have hdelta2 :
          cadd (cadd (cmul (smul2 2 (mix2 (texFetch Z1 i) (texFetch Z2 i) blend))
              (specDelta Z1 Z2 blend dc i)) (csqr (specDelta Z1 Z2 blend dc i))) dc =
            specDelta Z1 Z2 blend dc (i + 1) := by
        rw [hZ, csqr_eq_cmul]
        rfl
      by_cases hesc : escapesAt Z1 Z2 blend dc i
      · have hcond : cnorm2 (cadd (mix2 (texFetch Z1 i) (texFetch Z2 i) blend)
            (cadd (cadd (cmul (smul2 2 (mix2 (texFetch Z1 i) (texFetch Z2 i) blend))
              (specDelta Z1 Z2 blend dc i)) (csqr (specDelta Z1 Z2 blend dc i))) dc)) > 256 := by
          rw [hdelta2, hZ]
          exact hesc
        rw [if_pos hcond]
        refine ⟨?_, by intro hcontra; exact absurd hcontra (by simp)⟩
        intro _
        refine ⟨(by omega : i < min (i + (fuel + 1)) maxRef), ?_, hnoesc, ?_, rfl⟩
        · exact hesc
        · exact (hdelta2.symm : specDelta Z1 Z2 blend dc (i + 1) = _).symm
      · have hcond : ¬ (cnorm2 (cadd (mix2 (texFetch Z1 i) (texFetch Z2 i) blend)
            (cadd (cadd (cmul (smul2 2 (mix2 (texFetch Z1 i) (texFetch Z2 i) blend))
              (specDelta Z1 Z2 blend dc i)) (csqr (specDelta Z1 Z2 blend dc i))) dc)) > 256) := by
          rw [hdelta2, hZ]
          exact hesc
        rw [if_neg hcond, hdelta2]
        have hnoesc2 : ∀ m, m < i + 1 → ¬ escapesAt Z1 Z2 blend dc m := by
          intro m hm
          rcases Nat.lt_or_ge m i with h | h
          · exact hnoesc m h
          · have : m = i := by omega
            rw [this]
            exact hesc
        have := ih (i + 1) hnoesc2 (by omega)
        constructor
        · intro hescr
          obtain ⟨h1, h2, h3, h4, h5⟩ := this.1 hescr
          exact ⟨by omega, h2, h3, h4, h5⟩
        · intro hescr
          obtain ⟨h1, h2, h3⟩ := this.2 hescr
          exact ⟨by omega, h2, h3⟩

/-- C1: the renderer's perturbation loop computes exactly the recurrence
`delta_{n+1} = 2*Z_n*delta_n + delta_n^2 + delta_c` with `Z_n` the morph-blend
interpolation of the two orbits at index `n`, and it stops exactly when `n`
reaches `min(max_iter, orbit length)` (the orbit length being
`min(u_refCount, u_refCount2)`) or when the squared magnitude of
`Z_n + delta_n` exceeds the bailout square `256`: on escape the stop index is
the least escaping one and the final delta is `specDelta (stopI+1)`; with no
escape the loop exits at `min(max_iter, orbit length)` with
`delta = specDelta` of that index. -/
theorem C1_perturbation_loop_exact (Z1 Z2 : List Cx) (blend : ℚ) (dc : Cx)
    (maxIter : ℕ) :
    ((fragMain Z1 Z2 blend dc maxIter).escaped = true →
      (fragMain Z1 Z2 blend dc maxIter).stopI <
          min maxIter (min Z1.length Z2.length) ∧
      escapesAt Z1 Z2 blend dc (fragMain Z1 Z2 blend dc maxIter).stopI ∧
      (∀ m, m < (fragMain Z1 Z2 blend dc maxIter).stopI →
        ¬ escapesAt Z1 Z2 blend dc m) ∧
      (fragMain Z1 Z2 blend dc maxIter).delta =
        specDelta Z1 Z2 blend dc ((fragMain Z1 Z2 blend dc maxIter).stopI + 1))
    ∧ ((fragMain Z1 Z2 blend dc maxIter).escaped = false →
      (fragMain Z1 Z2 blend dc maxIter).stopI =
          min maxIter (min Z1.length Z2.length) ∧
      (∀ m, m < (fragMain Z1 Z2 blend dc maxIter).stopI →
        ¬ escapesAt Z1 Z2 blend dc m) ∧
      (fragMain Z1 Z2 blend dc maxIter).delta =
        specDelta Z1 Z2 blend dc (fragMain Z1 Z2 blend dc maxIter).stopI) := by
  have h := fragLoop_spec Z1 Z2 blend dc (min Z1.length Z2.length) maxIter 0
    (by intro m hm; omega) (Nat.zero_le _)
  rw [Nat.zero_add] at h
  constructor
  · intro hesc
    obtain ⟨h1, h2, h3, h4, _⟩ := h.1 hesc
    exact ⟨h1, h2, h3, h4⟩
  · intro hesc
    exact h.2 hesc

/-- Witness for C1: with both orbits `[(20, 0)]`, blend `0`, `delta_c = 0`
and `max_iter = 5`, the loop escapes at step `0`, strictly below
`min(max_iter, orbit length) = 1`. -/
theorem C1_perturbation_loop_exact_witness :
    (fragMain [((20:ℚ), (0:ℚ))] [((20:ℚ), (0:ℚ))] 0 (0, 0) 5).stopI <
      min 5 (min ([((20:ℚ), (0:ℚ))] : List Cx).length
        ([((20:ℚ), (0:ℚ))] : List Cx).length) := by
  have heval : (fragMain [((20:ℚ), (0:ℚ))] [((20:ℚ), (0:ℚ))] 0 (0, 0) 5).escaped
      = true := by
    norm_num [fragMain, fragLoop, texFetch, mix2, cmul, csqr, smul2, cadd, cnorm2]
  exact ((C1_perturbation_loop_exact [((20:ℚ), (0:ℚ))] [((20:ℚ), (0:ℚ))]
    0 (0, 0) 5).1 heval).1

/-- C7 (code bug): the shader's `glitched` flag is declared but never set, so
a sample that exhausts the orbit without escaping is *not* marked as a glitch
and is rendered through the ordinary background branch instead of the
sentinel branch.  First conjunct: `glitched` is `false` for every possible
loop outcome.  Remaining conjuncts evaluate the failing input (both orbits of
length 1, `max_iter = 3`, `delta_c = 0`): the loop exhausts the orbit,
escapes nothing, and the output branch is the background, which is distinct
from the glitch sentinel. -/
theorem C7_glitch_flag_never_set :
    (∀ (Z1 Z2 : List Cx) (blend : ℚ) (dc : Cx) (maxRef fuel i : ℕ) (delta : Cx),
      (fragLoop Z1 Z2 blend dc maxRef fuel i delta).glitched = false)
    ∧ (fragMain [((0:ℚ), (0:ℚ))] [((0:ℚ), (0:ℚ))] 0 (0, 0) 3).escaped = false
    ∧ (fragMain [((0:ℚ), (0:ℚ))] [((0:ℚ), (0:ℚ))] 0 (0, 0) 3).stopI = 1
    ∧ fragOutput (fragMain [((0:ℚ), (0:ℚ))] [((0:ℚ), (0:ℚ))] 0 (0, 0) 3) =
        FragColor.background
    ∧ FragColor.background ≠ FragColor.sentinel := by
  have heval : fragMain [((0:ℚ), (0:ℚ))] [((0:ℚ), (0:ℚ))] 0 (0, 0) 3 =
      { delta := (0, 0), iter := 0, escaped := false, glitched := false,
        final_z := (0, 0), stopI := 1 } := by
    norm_num [fragMain, fragLoop, texFetch, mix2, cmul, csqr, smul2, cadd, cnorm2]
  refine ⟨?_, by rw [heval], by rw [heval], by rw [heval]; rfl, by decide⟩
  intro Z1 Z2 blend dc maxRef fuel
  induction fuel with
  | zero => intro i delta; rfl
  | succ fuel ih =>
    intro i delta
    rw [fragLoop]
    by_cases hge : i ≥ maxRef
    · rw [if_pos hge]
    · rw [if_neg hge]
      dsimp only
      split
      · rfl
      · exact ih (i + 1) _

/-- Every reachable auto-boost value lies in `[0, 1]`. -/
theorem reachableBoost_mem (b : ℝ) (h : ReachableBoost b) : 0 ≤ b ∧ b ≤ 1 := by
  induction h with
  | start => norm_num
  | boost b _ ih =>
    unfold boostUp
    split
    · norm_num
    · constructor
      · linarith [ih.1]
      · linarith
  | decay b _ ih =>
    unfold boostDecay
    split
    · norm_num
    · constructor
      · linarith
      · linarith [ih.2]
  | reset b _ _ => norm_num

/-- C9: in every frame, for every oscillator phase (any accumulated time and
morph intensity) and every auto-boost value reachable by the frame-update
rules, the morph blend factor passed to the iterator lies in `[0, 1]`. -/
theorem C9_morph_blend_in_unit_interval (t intensity b : ℝ)
    (h : ReachableBoost b) :
    0 ≤ morphBlend t intensity b ∧ morphBlend t intensity b ≤ 1 := by
  have hb := reachableBoost_mem b h
  have hsin : -1 ≤ Real.sin (t * 0.1 * intensity) := Real.neg_one_le_sin _
  have hbase : 0 ≤ baseMorphBlend t intensity := by
    unfold baseMorphBlend
    linarith
  constructor
  · unfold morphBlend
    apply le_min
    · norm_num
    · linarith [hb.1]
  · exact min_le_left _ _

/-- Witness for C9 at `t = 0`, `intensity = 1`, boost `0` (the start state). -/
theorem C9_morph_blend_in_unit_interval_witness :
    0 ≤ morphBlend 0 1 0 ∧ morphBlend 0 1 0 ≤ 1 :=
  C9_morph_blend_in_unit_interval 0 1 0 ReachableBoost.start

/-- Eviction always leaves the pool within capacity. -/
theorem evictOldest_length_le (l : List RippleEvent) :
    (evictOldest l).length ≤ MAX_RIPPLES := by
  induction l with
  | nil => simp [evictOldest, MAX_RIPPLES]
  | cons r rest ih =>
    rw [evictOldest]
    split
    · exact ih
    · omega

/-- Eviction does nothing to a pool already within capacity. -/
theorem evictOldest_of_le (l : List RippleEvent) (h : l.length ≤ MAX_RIPPLES) :
    evictOldest l = l := by
  cases l with
  | nil => rfl
  | cons r rest =>
    rw [evictOldest, if_neg]
    omega

/-- The decay-and-filter pass never grows the pool. -/
theorem decayRipples_length_le (pool : List RippleEvent) :
    (decayRipples pool).length ≤ pool.length := by
  unfold decayRipples
  exact le_trans (List.length_filter_le _ _) (le_of_eq (List.length_map _ _))

/-- One frame keeps the pool within capacity. -/
theorem rippleFrame_length_le (pool : List RippleEvent)
    (beat : Option RippleEvent) (h : pool.length ≤ MAX_RIPPLES) :
    (rippleFrame pool beat).length ≤ MAX_RIPPLES := by
  cases beat with
  | none => exact le_trans (decayRipples_length_le pool) h
  | some r =>
    exact le_trans (decayRipples_length_le _) (evictOldest_length_le _)

/-- The fold over frames keeps the pool within capacity. -/
theorem foldl_rippleFrame_le (beats : List (Option RippleEvent)) :
    ∀ pool : List RippleEvent, pool.length ≤ MAX_RIPPLES →
      (beats.foldl rippleFrame pool).length ≤ MAX_RIPPLES := by
  induction beats with
  | nil => intro pool h; simpa using h
  | cons beat beats ih =>
    intro pool h
    exact ih _ (rippleFrame_length_le pool beat h)

/-- C10: across every sequence of frame updates from the empty pool, the
ripple pool never exceeds `MAX_RIPPLES`; when the pool is full and a new
transient fires, the evicted entry is the front of the queue — the oldest
ripple; absent new transients every surviving ripple's intensity is the old
intensity scaled by `0.96`, strictly smaller; and everything surviving a
frame is strictly above the `0.005` removal floor. -/
theorem C10_ripple_pool_invariants :
    (∀ beats : List (Option RippleEvent),
      (runRippleFrames beats).length ≤ MAX_RIPPLES)
    ∧ (∀ (pool : List RippleEvent) (r : RippleEvent),
        pool.length = MAX_RIPPLES → spawnRipple pool r = pool.tail ++ [r])
    ∧ (∀ pool : List RippleEvent, ∀ r2 ∈ rippleFrame pool none,
        ∃ r1 ∈ pool, r2.intensity = r1.intensity * (96/100) ∧
          r2.intensity < r1.intensity)
    ∧ (∀ (pool : List RippleEvent) (beat : Option RippleEvent),
        ∀ r2 ∈ rippleFrame pool beat, r2.intensity > 5/1000) := by
  refine ⟨?_, ?_, ?_, ?_⟩
  · intro beats
    exact foldl_rippleFrame_le beats [] (by simp [MAX_RIPPLES])
  · intro pool r hlen
    cases pool with
    | nil => simp [MAX_RIPPLES] at hlen
    | cons p ps =>
      show evictOldest ((p :: ps) ++ [r]) = ps ++ [r]
      rw [List.cons_append, evictOldest, if_pos (by simp at hlen ⊢; omega)]
      apply evictOldest_of_le
      simp at hlen ⊢
      omega
  · intro pool r2 hr2
    have hr2' : r2 ∈ decayRipples pool := hr2
    rw [decayRipples, List.mem_filter] at hr2'
    obtain ⟨hmem, hpred⟩ := hr2'
    rw [List.mem_map] at hmem
    obtain ⟨r1, hr1, hmap⟩ := hmem
    have hint : r2.intensity = r1.intensity * (96/100) := by
      rw [← hmap]
    have hfloor : r2.intensity > 5/1000 := by
      simpa using hpred
    refine ⟨r1, hr1, hint, ?_⟩
    have hpos : 0 < r1.intensity := by nlinarith
    nlinarith
  · intro pool beat r2 hr2
    cases beat with
    | none =>
      have hmem : r2 ∈ decayRipples pool := hr2
      rw [decayRipples, List.mem_filter] at hmem
      simpa using hmem.2
    | some r =>
      have hmem : r2 ∈ decayRipples (spawnRipple pool r) := hr2
      rw [decayRipples, List.mem_filter] at hmem
      simpa using hmem.2

/-- Witness for C10: with a full pool of six identical ripples, spawning a
new one evicts exactly the front entry. -/
theorem C10_ripple_pool_invariants_witness :
    spawnRipple (List.replicate 6 ⟨0, 1/2, RippleKind.bass⟩)
        ⟨1, 1/2, RippleKind.mid⟩ =
      (List.replicate 6 (⟨0, 1/2, RippleKind.bass⟩ : RippleEvent)).tail ++
        [⟨1, 1/2, RippleKind.mid⟩] :=
  C10_ripple_pool_invariants.2.1 _ _ (by simp [MAX_RIPPLES])

/-- Decoding inverts encoding on sextet values. -/
theorem decode_encodeB64Char : ∀ n : ℕ, n < 64 →
    decodeB64Char (encodeB64Char n) = n := by decide

/-- No sextet encodes to the padding character. -/
theorem encodeB64Char_ne_pad : ∀ n : ℕ, n < 64 → ¬ (encodeB64Char n = '=') := by
  decide

/-- Base64 round trip on byte lists. -/
theorem b64_roundtrip : ∀ bs : List ℕ, (∀ b ∈ bs, b < 256) →
    b64decode (b64encode bs) = bs
  | [], _ => rfl
  | [b0], h => by
    have hb0 : b0 < 256 := h b0 (by simp)
    rw [b64encode]
    rw [b64decode]
    rw [if_pos rfl]
    rw [decode_encodeB64Char _ (by omega), decode_encodeB64Char _ (by omega)]
    simp only [List.cons.injEq, and_true]
    omega
  | [b0, b1], h => by
    have hb0 : b0 < 256 := h b0 (by simp)
    have hb1 : b1 < 256 := h b1 (by simp)
    rw [b64encode]
    rw [b64decode]
    rw [if_neg (encodeB64Char_ne_pad _ (by omega)), if_pos rfl]
    rw [decode_encodeB64Char _ (by omega), decode_encodeB64Char _ (by omega),
      decode_encodeB64Char _ (by omega)]
    simp only [List.cons.injEq, and_true]
    constructor
    · omega
    · omega
  | b0 :: b1 :: b2 :: rest, h => by
    have hb0 : b0 < 256 := h b0 (by simp)
    have hb1 : b1 < 256 := h b1 (by simp)
    have hb2 : b2 < 256 := h b2 (by simp)
    have ih := b64_roundtrip rest (fun b hb => h b (by simp [hb]))
    rw [b64encode]
    rw [b64decode]
    rw [if_neg (encodeB64Char_ne_pad _ (by omega)),
      if_neg (encodeB64Char_ne_pad _ (by omega))]
    rw [decode_encodeB64Char _ (by omega), decode_encodeB64Char _ (by omega),
      decode_encodeB64Char _ (by omega), decode_encodeB64Char _ (by omega)]
    rw [ih]
    simp only [List.cons.injEq, and_true]
    refine ⟨by omega, by omega, by omega⟩

/-- Every serialized byte is below 256. -/
theorem wordsToBytes_lt (ws : List ℕ) : ∀ b ∈ wordsToBytes ws, b < 256 := by
  induction ws with
  | nil => intro b hb; simp [wordsToBytes] at hb
  | cons w ws ih =>
    intro b hb
    rw [wordsToBytes, List.mem_append] at hb
    rcases hb with hb | hb
    · rw [word32ToBytes] at hb
      simp only [List.mem_cons, List.not_mem_nil, or_false] at hb
      rcases hb with h | h | h | h <;> rw [h] <;> omega
    · exact ih b hb

/-- Reading the little-endian serialization back yields the original 32-bit
patterns. -/
theorem bytesToWords_wordsToBytes (ws : List ℕ)
    (h : ∀ w ∈ ws, w < 4294967296) :
    bytesToWords (wordsToBytes ws) = ws := by
  induction ws with
  | nil => rfl
  | cons w ws ih =>
    have hw : w < 4294967296 := h w (by simp)
    rw [wordsToBytes, word32ToBytes]
    rw [List.cons_append, List.cons_append, List.cons_append,
      List.singleton_append, bytesToWords]
    rw [ih (fun x hx => h x (by simp [hx]))]
    simp only [List.cons.injEq, and_true]
    omega

/-- C4: the codec round trip is the identity on every pair of equal-length
float32 orbit arrays — decoding the base64-encoded little-endian byte form
reproduces both the real and the imaginary array exactly, element for
element in iteration order (float32 samples identified with their 32-bit
patterns). -/
theorem C4_codec_roundtrip (re im : List ℕ) (_hlen : re.length = im.length)
    (hre : ∀ w ∈ re, w < 4294967296) (him : ∀ w ∈ im, w < 4294967296) :
    decodeOrbitArray (encodeOrbitArray re) = re ∧
    decodeOrbitArray (encodeOrbitArray im) = im := by
  constructor
  · rw [decodeOrbitArray, encodeOrbitArray,
      b64_roundtrip (wordsToBytes re) (wordsToBytes_lt re)]
    exact bytesToWords_wordsToBytes re hre
  · rw [decodeOrbitArray, encodeOrbitArray,
      b64_roundtrip (wordsToBytes im) (wordsToBytes_lt im)]
    exact bytesToWords_wordsToBytes im him

/-- Witness for C4: the bit patterns of float32 `[0.0, 1.0]` and
`[-1.0, 0.5]` round-trip through the codec. -/
theorem C4_codec_roundtrip_witness :
    decodeOrbitArray (encodeOrbitArray [0, 1065353216]) = [0, 1065353216] ∧
    decodeOrbitArray (encodeOrbitArray [3212836864, 1056964608]) =
      [3212836864, 1056964608] :=
  C4_codec_roundtrip [0, 1065353216] [3212836864, 1056964608]
    (by decide) (by decide) (by decide)
